import Mathlib

/-!
Verification of the quick-view storefront widget (assets/custom.js).

The JavaScript source is shallowly embedded: product JSON objects become
structures, DOM/ network effects become explicit inputs and outputs, and the
event handlers become pure functions from those inputs to an outcome record
describing every observable action (cart-add calls issued, message text,
control state, navigation).
-/

/-- A JavaScript number as it occurs in this program: either NaN or a finite
value (modelled as a rational; the magnitudes involved are far below the range
where IEEE doubles lose integer precision). -/
inductive JsNum where
  | nan : JsNum
  | num : Rat → JsNum
deriving DecidableEq, Repr

/-- JS truthiness of a number: NaN and 0 are falsy. -/
def JsNum.truthy : JsNum → Bool
  | JsNum.nan => false
  | JsNum.num q => q != 0

/-- Numeric value of a list of decimal digit characters. -/
def digitsVal (cs : List Char) : Nat :=
  cs.foldl (fun a c => a * 10 + (c.toNat - '0'.toNat)) 0

/-- `Number(s)` for the decimal-numeral strings this program meets: optional
whitespace trim, optional sign, integer part, optional fractional part.
The whole trimmed string must be consumed; anything else is NaN.
(Hex, exponent and Infinity forms never occur in this program's inputs.) -/
def parseDec (cs : List Char) : Option Rat :=
  let intPart := cs.takeWhile (fun c => c.isDigit)
  let rest := cs.dropWhile (fun c => c.isDigit)
  match rest with
  | [] => if intPart.isEmpty then none else some (digitsVal intPart : Nat)
  | '.' :: frac =>
    if frac.all (fun c => c.isDigit) && (!intPart.isEmpty || !frac.isEmpty) then
      some ((digitsVal intPart : Rat) + (digitsVal frac : Rat) / ((10 : Rat) ^ frac.length))
    else none
  | _ => none

/-- Leading/trailing-whitespace trim on the character list (the trim JS
`Number` performs before parsing). -/
def trimChars (cs : List Char) : List Char :=
  ((cs.dropWhile Char.isWhitespace).reverse.dropWhile Char.isWhitespace).reverse

/-- JS `Number` applied to a string. Empty (after trimming) coerces to 0. -/
def jsNumber (s : String) : JsNum :=
  match trimChars s.data with
  | [] => JsNum.num 0
  | '-' :: rest =>
    match parseDec rest with
    | some q => JsNum.num (-q)
    | none => JsNum.nan
  | '+' :: rest =>
    match parseDec rest with
    | some q => JsNum.num q
    | none => JsNum.nan
  | cs =>
    match parseDec cs with
    | some q => JsNum.num q
    | none => JsNum.nan

/-- JS `===` between a number and a (never-NaN) numeric constant:
NaN is equal to nothing, including itself. -/
def JsNum.eqNum : JsNum → Rat → Bool
  | JsNum.nan, _ => false
  | JsNum.num q, r => q == r

/-- Substring membership on character lists (JS `String.includes`). -/
def listContainsSub (pat : List Char) : List Char → Bool
  | [] => pat.isEmpty
  | c :: cs => pat.isPrefixOf (c :: cs) || listContainsSub pat cs

/-- JS `s.includes(pat)`. -/
def strIncludes (s pat : String) : Bool :=
  listContainsSub pat.data s.data

/-- A product variant from the `/products/{handle}.js` JSON
(`option1`/`option2`/`option3` slots are absent when unset). -/
structure Variant where
  id : Int
  vtitle : Option String
  price : Int
  available : Bool
  option1 : Option String
  option2 : Option String
  option3 : Option String
deriving DecidableEq, Repr

/-- A product from the `/products/{handle}.js` JSON
(only the fields the embedded code reads). -/
structure Product where
  title : String
  options : List String
  variants : List Variant
deriving DecidableEq, Repr

/-- `v['option' + (idx + 1)]`: positional option slot of a variant;
`undefined` for indices past the third slot. -/
def optionSlot (v : Variant) : Nat → Option String
  | 0 => v.option1
  | 1 => v.option2
  | 2 => v.option3
  | _ => none

/-- The mutable `selections` object: insertion-ordered key/value pairs,
a value of `none` modelling an entry explicitly set to `undefined`. -/
abbrev Selections := List (String × Option String)

/-- JS property update `sel[k] = v` (overwrites in place, appends when new). -/
def setSel : Selections → String → Option String → Selections
  | [], k, v => [(k, v)]
  | (k', v') :: rest, k, v =>
    if k' = k then (k, v) :: rest else (k', v') :: setSel rest k v

/-- JS property read `sel[k]`: `undefined` when the key is absent or was
set to `undefined`. -/
def getSel (sel : Selections) (k : String) : Option String :=
  match sel with
  | [] => none
  | (k', v') :: rest => if k' = k then v' else getSel rest k

/-- One clause of the variant-match loop body in `findVariant`: a falsy
selection entry (absent or empty) is a wildcard, otherwise the variant's
positional slot must strictly equal the selected string. -/
def optClauseHolds (sel : Selections) (v : Variant) : Nat × String → Bool
  | (idx, optName) =>
    match getSel sel optName with
    | none => true
    | some want =>
      if want = "" then true
      else
        match optionSlot v idx with
        | none => false
        | some got => got == want

/-- The predicate `findVariant` tests on each variant: every option clause
holds, iterating `product.options` with its positional index. -/
def variantMatches (p : Product) (sel : Selections) (v : Variant) : Bool :=
  p.options.enum.all (optClauseHolds sel v)

/-- `findVariant(product, selections)`: first variant in list order whose
option clauses all hold. -/
def findVariant (p : Product) (sel : Selections) : Option Variant :=
  p.variants.find? (fun v => variantMatches p sel v)

/-- Modelled from the spec (§4.1): a variant matches the selection map iff,
for every option name in `product.options` that has a non-empty entry in
`selections`, the variant's corresponding positional option value equals the
selection; options absent from `selections` are wildcards. Stated over option
indices so that "corresponding positional" is explicit. -/
def specMatches (p : Product) (sel : Selections) (v : Variant) : Bool :=
  (List.range p.options.length).all fun i =>
    match getSel sel (p.options.getD i "") with
    | none => true
    | some s => if s = "" then true else optionSlot v i == some s

/-- `(cents / 100).toFixed(2)` on an integer input: exact two-decimal
rendering (the quotients in scope are exactly representable up to the
half-ulp rounding `toFixed` performs, which is the identity here). -/
def toFixed2 (cents : Int) : String :=
  let sign := if cents < 0 then "-" else ""
  let n := cents.natAbs
  let r := n % 100
  sign ++ toString (n / 100) ++ "." ++ (if r < 10 then "0" else "") ++ toString r

/-- Outcome of the `Intl.NumberFormat(...).format` call inside `formatMoney`:
the platform locale API is an external collaborator, so its behaviour is an
input — either it yields a localized string or it throws. -/
inductive IntlOutcome where
  | ok : String → IntlOutcome
  | throws : IntlOutcome
deriving DecidableEq, Repr

/-- `formatMoney(cents)`: try the platform formatter, fall back to fixed
two-decimal division by 100 when it throws. Total — never propagates the
exception. -/
def formatMoney (intl : IntlOutcome) (cents : Int) : String :=
  match intl with
  | IntlOutcome.ok s => s
  | IntlOutcome.throws => toFixed2 cents

/-- `getUpsellVariantIdFromSection`: `sectionFound` says whether
`findGridSection` located a grid section (ancestor or document fallback);
`attr` is the section's `data-upsell-variant` attribute (`none` when absent).
`Number(v) || null` maps NaN and 0 to null. -/
def getUpsellVariantIdFromSection (sectionFound : Bool) (attr : Option String) :
    Option Rat :=
  if sectionFound then
    match attr with
    | none => none
    | some v =>
      if v = "" then none
      else
        match jsNumber v with
        | JsNum.nan => none
        | JsNum.num q => if q = 0 then none else some q
  else none

/-- One `/cart/add.js` POST body: `{id: Number(variantId), quantity: Number(quantity)}`. -/
structure AddCall where
  id : JsNum
  quantity : JsNum
deriving DecidableEq, Repr

/-- Result of one network round-trip of `addToCart`: `ok` for an HTTP success
status, `fail` for a non-success status or transport error (both reject the
promise, so they are one observable outcome for the caller). -/
inductive NetResult where
  | ok : NetResult
  | fail : NetResult
deriving DecidableEq, Repr

/-- The DOM state the add-button handler reads, plus the network outcomes of
the (up to two) cart adds it may await. -/
structure ClickEnv where
  qtyValue : String
  variantIdAttr : Option String
  primaryResult : NetResult
  upsellResult : NetResult
deriving DecidableEq, Repr

/-- Everything observable about one run of the add-button handler.
`upsellWarnLogged` records the `console.warn` in the upsell catch block;
everything else is what the shopper can see. -/
structure ClickOutcome where
  calls : List AddCall
  msg : String
  addBtnDisabled : Bool
  navigatedToCart : Bool
  upsellWarnLogged : Bool
deriving DecidableEq, Repr

/-- JS `toLowerCase`, character by character (the option values this program
meets are ASCII, where the two agree). -/
def strToLower (s : String) : String :=
  ⟨s.data.map Char.toLower⟩

/-- The lower-cased non-empty option values of the chosen variant
(`[option1, option2, option3].forEach(o => if (o) push(o.toLowerCase()))`). -/
def chosenOptionValues (cv : Option Variant) : List String :=
  match cv with
  | none => []
  | some v =>
    ([v.option1, v.option2, v.option3].filterMap id).filter (fun s => s ≠ "")
      |>.map strToLower

/-- `addBtn.onclick`: read qty and variant id, bail out with an inline message
when no variant id is set, otherwise POST the primary add; on its failure show
the retry message and re-enable the control; on success evaluate the upsell
rule (substrings "black" and "medium" among the chosen variant's lower-cased
option values and a configured upsell id), issue the upsell add with its
failure swallowed, then navigate to the cart. -/
def addBtnClick (p : Product) (sectionFound : Bool) (upsellAttr : Option String)
    (env : ClickEnv) : ClickOutcome :=
  let qtyRaw := env.qtyValue
  match env.variantIdAttr with
  | none =>
    { calls := [], msg := "Please select variant", addBtnDisabled := false,
      navigatedToCart := false, upsellWarnLogged := false }
  | some vid =>
    if vid = "" then
      { calls := [], msg := "Please select variant", addBtnDisabled := false,
        navigatedToCart := false, upsellWarnLogged := false }
    else
      let primaryCall : AddCall :=
        { id := jsNumber vid,
          quantity := if qtyRaw = "" then JsNum.num 1 else jsNumber qtyRaw }
      match env.primaryResult with
      | NetResult.fail =>
        { calls := [primaryCall], msg := "Could not add to cart. Try again.",
          addBtnDisabled := false, navigatedToCart := false,
          upsellWarnLogged := false }
      | NetResult.ok =>
        let chosenVariant :=
          p.variants.find? (fun v => JsNum.eqNum (jsNumber vid) (v.id : Rat))
        let optionValues := chosenOptionValues chosenVariant
        let hasBlack := optionValues.any (fun v => strIncludes v "black")
        let hasMedium := optionValues.any (fun v => strIncludes v "medium")
        let upsellVariantId := getUpsellVariantIdFromSection sectionFound upsellAttr
        match upsellVariantId with
        | some uid =>
          if hasBlack && hasMedium then
            { calls := [primaryCall, { id := JsNum.num uid, quantity := JsNum.num 1 }],
              msg := "Adding...", addBtnDisabled := true, navigatedToCart := true,
              upsellWarnLogged := env.upsellResult == NetResult.fail }
          else
            { calls := [primaryCall], msg := "Adding...", addBtnDisabled := true,
              navigatedToCart := true, upsellWarnLogged := false }
        | none =>
          { calls := [primaryCall], msg := "Adding...", addBtnDisabled := true,
            navigatedToCart := true, upsellWarnLogged := false }

/-- Page-level modal state: `modal = none` while the `#custom-quickview` node
does not exist yet, `some b` once it exists with `b` recording the `open`
class; `noScroll` records the `no-scroll` class on the document element. -/
structure PageState where
  modal : Option Bool
  noScroll : Bool
deriving DecidableEq, Repr

/-- `openModal(modal)`: adds the `open` class and the page scroll lock
(only reachable after `ensureModal`, so the node exists). -/
def openModalState (_st : PageState) : PageState :=
  { modal := some true, noScroll := true }

/-- `closeModal(modal)`: removes the `open` class and the page scroll lock
(callers only invoke it on an existing node). -/
def closeModalState (_st : PageState) : PageState :=
  { modal := some false, noScroll := false }

/-- `ensureModal()`: create the singleton node if absent, otherwise reuse it. -/
def ensureModalState (st : PageState) : PageState :=
  match st.modal with
  | none => { st with modal := some false }
  | some _ => st

/-- The Escape `keydown` handler: close only when the node exists and
currently has the `open` class. -/
def escapeKeyState (st : PageState) : PageState :=
  match st.modal with
  | some true => closeModalState st
  | _ => st

/-- A click on a `[data-cqv-close]` target (close control or backdrop):
close the modal if its node exists. -/
def closeClickState (st : PageState) : PageState :=
  match st.modal with
  | none => st
  | some _ => closeModalState st

/-- Observable outcome of a click on a `[data-quick]` trigger, up to the point
where the product fetch would be issued. -/
structure OpenOutcome where
  alertShown : Option String
  fetchIssued : Bool
deriving DecidableEq, Repr

/-- The `[data-quick]` branch of the delegated click handler: a missing (or
empty, hence falsy) `data-handle` attribute raises a blocking alert and
returns before any fetch. -/
def quickOpenClick (handle : Option String) : OpenOutcome :=
  match handle with
  | none => { alertShown := some "Product handle missing", fetchIssued := false }
  | some h =>
    if h = "" then
      { alertShown := some "Product handle missing", fetchIssued := false }
    else
      { alertShown := none, fetchIssued := true }

/-- The modal-session fields `buildVariantPickers` reads and writes:
the `selections` object, `modal.dataset.variantId` (a string), the price
node's content (recorded as the cents value handed to `formatMoney`, which
determines the rendered text), and the title node's content. -/
structure PickerState where
  selections : Selections
  variantId : Option String
  priceCents : Option Int
  titleText : Option String
deriving DecidableEq

/-- The title string a resolving click writes:
`product.title + (variant.title ? ' — ' + variant.title : '')`. -/
def titleFor (p : Product) (v : Variant) : String :=
  p.title ++
    match v.vtitle with
    | none => ""
    | some t => if t = "" then "" else " — " ++ t

/-- The option-button click handler: write the value into `selections`, run
`findVariant`, and on a resolution record variant id, price and title. -/
def clickOpt (p : Product) (st : PickerState) (optName : String)
    (val : Option String) : PickerState :=
  let sel := setSel st.selections optName val
  match findVariant p sel with
  | some v =>
    { selections := sel, variantId := some (toString v.id),
      priceCents := some v.price, titleText := some (titleFor p v) }
  | none => { st with selections := sel }

/-- The distinct rendered button values of one option group:
`Array.from(new Set(product.variants.map(v => v['option' + idx])))`
(only membership in this list matters below). -/
def optionButtonValues (p : Product) (idx : Nat) : List (Option String) :=
  (p.variants.map (fun v => optionSlot v idx)).dedup

/-- Whether the pre-seed `querySelector` finds a button for this option/value
pair: a button exists for each distinct value of the group. -/
def buttonRendered (p : Product) (idx : Nat) (val : Option String) : Bool :=
  (optionButtonValues p idx).contains val

/-- One step of the pre-seed loop: write the initial variant's value into
`selections`, then simulate the button click when the button exists. -/
def preSeedStep (p : Product) (iv : Variant) (st : PickerState)
    (e : Nat × String) : PickerState :=
  let val := optionSlot iv e.1
  let st' := { st with selections := setSel st.selections e.2 val }
  if buttonRendered p e.1 val then clickOpt p st' e.2 val else st'

/-- `product.variants.find(v => v.available) || product.variants[0]`. -/
def initialVariantOf (p : Product) : Option Variant :=
  match p.variants.find? (fun v => v.available) with
  | some v => some v
  | none => p.variants.head?

/-- The fresh picker state `buildVariantPickers` starts from: an empty
`selections` object; the title node was just set to `product.title` by the
open handler, price and session variant id are whatever the previous session
left (irrelevant here, recorded as the open handler leaves them). -/
def freshPickerState (p : Product) : PickerState :=
  { selections := [], variantId := none, priceCents := none,
    titleText := some p.title }

/-- `buildVariantPickers(modal, product)`, state part: run the pre-seed loop
over the options with the initial variant's values, then record the initial
variant's id and price directly. -/
def buildVariantPickersState (p : Product) : PickerState :=
  match initialVariantOf p with
  | none => freshPickerState p
  | some iv =>
    let st := p.options.enum.foldl (preSeedStep p iv) (freshPickerState p)
    { st with variantId := some (toString iv.id), priceCents := some iv.price }

/-- The state reached when the shopper manually clicks, in option order, the
button carrying `iv`'s value in every option group, starting from the fresh
picker state. -/
def manualClicksState (p : Product) (iv : Variant) : PickerState :=
  p.options.enum.foldl (fun st e => clickOpt p st e.2 (optionSlot iv e.1))
    (freshPickerState p)

/-! ### General lemmas -/

lemma find?_pred_congr {α : Type} (l : List α) (f g : α → Bool)
    (h : ∀ a ∈ l, f a = g a) : l.find? f = l.find? g := by
  induction l with
  | nil => rfl
  | cons a t ih =>
    simp only [List.find?]
    rw [h a (List.mem_cons_self a t)]
    cases g a
    · exact ih fun x hx => h x (List.mem_cons_of_mem a hx)
    · rfl

lemma find?_const_true {α : Type} (l : List α) :
    l.find? (fun _ => true) = l.head? := by
  cases l <;> rfl

lemma all_pred_congr {α : Type} (l : List α) (f g : α → Bool)
    (h : ∀ a ∈ l, f a = g a) : l.all f = l.all g := by
  induction l with
  | nil => rfl
  | cons a t ih =>
    simp only [List.all_cons]
    rw [h a (List.mem_cons_self a t),
      ih fun x hx => h x (List.mem_cons_of_mem a hx)]

/-! ### C7 — money formatting -/

/-- C7: for every integer minor-unit input, `formatMoney` is a total function
whose value under a throwing platform formatter is the fixed two-decimal
division of the input by 100; in particular input 1999 yields "19.99". -/
theorem formatMoney_fallback :
    (∀ cents : Int, formatMoney IntlOutcome.throws cents = toFixed2 cents) ∧
    formatMoney IntlOutcome.throws 1999 = "19.99" := by
  refine ⟨fun cents => rfl, ?_⟩
  decide

/-! ### C9 — upsell id coercion -/

/-- C9: the configured upsell id is `none` exactly when no grid section is
found, the attribute is absent or empty, or its `Number` coercion is NaN or 0;
every string coercing to a nonzero number — negative and fractional values
included — is accepted. Witnessed concretely on "0", "-5" and "1.5". -/
theorem getUpsellVariantId_characterisation :
    (∀ attr, getUpsellVariantIdFromSection false attr = none) ∧
    getUpsellVariantIdFromSection true none = none ∧
    (∀ s, getUpsellVariantIdFromSection true (some s) = none ↔
      (s = "" ∨ jsNumber s = JsNum.nan ∨ jsNumber s = JsNum.num 0)) ∧
    (∀ s q, jsNumber s = JsNum.num q → q ≠ 0 →
      getUpsellVariantIdFromSection true (some s) = some q) ∧
    getUpsellVariantIdFromSection true (some "0") = none ∧
    getUpsellVariantIdFromSection true (some "-5") = some (-5) ∧
    getUpsellVariantIdFromSection true (some "1.5") = some (3 / 2 : Rat) := by
  refine ⟨fun attr => rfl, rfl, ?_, ?_, ?_, ?_, ?_⟩
  · intro s
    unfold getUpsellVariantIdFromSection
    by_cases hs : s = ""
    · simp [hs]
    · simp only [if_pos rfl, hs, if_neg, if_true]
      cases hn : jsNumber s with
      | nan => simp [hs, hn]
      | num q =>
        by_cases hq : q = 0
        · simp [hs, hn, hq]
        · simp [hs, hn, hq]
  · intro s q hn hq
    unfold getUpsellVariantIdFromSection
    have hs : s ≠ "" := by
      intro h
      rw [h] at hn
      have h0 : jsNumber "" = JsNum.num 0 := by
        simp [jsNumber, trimChars]
      rw [h0] at hn
      exact hq (by injection hn with h'; exact h'.symm)
    simp [hs, hn, hq]
  · simp [getUpsellVariantIdFromSection, jsNumber, trimChars, parseDec, digitsVal]
  · simp [getUpsellVariantIdFromSection, jsNumber, trimChars, parseDec, digitsVal]
  · simp [getUpsellVariantIdFromSection, jsNumber, trimChars, parseDec, digitsVal]
    norm_num


/-! ### C5, C6, C10, C3 — add-button flow -/

/-- The primary `/cart/add.js` body for a given variant-id string and raw
quantity input (`value || 1`, then `Number` on both fields). -/
def primaryCallOf (vid qtyRaw : String) : AddCall :=
  { id := jsNumber vid,
    quantity := if qtyRaw = "" then JsNum.num 1 else jsNumber qtyRaw }

/-- C5: when the primary cart add fails, the failure message is shown inline
in the modal, the add control is re-enabled, no navigation happens, no upsell
add is attempted, and exactly the one primary attempt was issued. -/
theorem primary_fail_outcome (p : Product) (sectionFound : Bool)
    (upsellAttr : Option String) (env : ClickEnv) (vid : String)
    (hvid : env.variantIdAttr = some vid) (hne : vid ≠ "")
    (hfail : env.primaryResult = NetResult.fail) :
    addBtnClick p sectionFound upsellAttr env =
      { calls := [primaryCallOf vid env.qtyValue],
        msg := "Could not add to cart. Try again.", addBtnDisabled := false,
        navigatedToCart := false, upsellWarnLogged := false } := by
  obtain ⟨qv, va, pr, ur⟩ := env
  cases hvid
  cases hfail
  unfold addBtnClick primaryCallOf
  simp [hne]

/-- C6: a missing (absent or empty) product handle on the open trigger raises
the blocking alert and issues no product fetch; a missing resolved variant id
at add time shows the inline message, re-enables the control, and issues no
cart-add call. -/
theorem missing_input_no_network (p : Product) (sectionFound : Bool)
    (upsellAttr : Option String) (env : ClickEnv)
    (hvid : env.variantIdAttr = none ∨ env.variantIdAttr = some "") :
    quickOpenClick none =
      { alertShown := some "Product handle missing", fetchIssued := false } ∧
    quickOpenClick (some "") =
      { alertShown := some "Product handle missing", fetchIssued := false } ∧
    addBtnClick p sectionFound upsellAttr env =
      { calls := [], msg := "Please select variant", addBtnDisabled := false,
        navigatedToCart := false, upsellWarnLogged := false } := by
  refine ⟨rfl, rfl, ?_⟩
  obtain ⟨qv, va, pr, ur⟩ := env
  unfold addBtnClick
  rcases hvid with h | h <;> cases h <;> simp

/-- C10: the primary POST body always carries `Number(variantId)` and
`Number(quantity)`; an empty quantity input string defaults to 1. -/
theorem primary_body_coercion (p : Product) (sectionFound : Bool)
    (upsellAttr : Option String) (env : ClickEnv) (vid : String)
    (hvid : env.variantIdAttr = some vid) (hne : vid ≠ "") :
    (addBtnClick p sectionFound upsellAttr env).calls.head? =
      some (primaryCallOf vid env.qtyValue) := by
  obtain ⟨qv, va, pr, ur⟩ := env
  cases hvid
  unfold addBtnClick primaryCallOf
  simp only [if_neg hne]
  cases pr with
  | fail => rfl
  | ok =>
    dsimp only
    cases getUpsellVariantIdFromSection sectionFound upsellAttr with
    | none => rfl
    | some uid =>
      dsimp only
      split <;> rfl

/-- C3: the upsell add is reached only when the primary add succeeded; the
upsell result changes nothing the shopper can see — calls, message, control
state and navigation are identical for any upsell outcome, an upsell failure
being recorded only in the console log — and navigation to the cart happens
whenever the primary add succeeded. -/
theorem upsell_after_primary (p : Product) (sectionFound : Bool)
    (upsellAttr : Option String) (env : ClickEnv) (vid : String)
    (hvid : env.variantIdAttr = some vid) (hne : vid ≠ "") :
    (1 < (addBtnClick p sectionFound upsellAttr env).calls.length →
      env.primaryResult = NetResult.ok) ∧
    (∀ r,
      (addBtnClick p sectionFound upsellAttr { env with upsellResult := r }).calls =
        (addBtnClick p sectionFound upsellAttr env).calls ∧
      (addBtnClick p sectionFound upsellAttr { env with upsellResult := r }).msg =
        (addBtnClick p sectionFound upsellAttr env).msg ∧
      (addBtnClick p sectionFound upsellAttr { env with upsellResult := r }).addBtnDisabled =
        (addBtnClick p sectionFound upsellAttr env).addBtnDisabled ∧
      (addBtnClick p sectionFound upsellAttr { env with upsellResult := r }).navigatedToCart =
        (addBtnClick p sectionFound upsellAttr env).navigatedToCart) ∧
    (1 < (addBtnClick p sectionFound upsellAttr env).calls.length →
      env.upsellResult = NetResult.fail →
      (addBtnClick p sectionFound upsellAttr env).upsellWarnLogged = true) ∧
    (env.primaryResult = NetResult.ok →
      (addBtnClick p sectionFound upsellAttr env).navigatedToCart = true) := by
  obtain ⟨qv, va, pr, ur⟩ := env
  cases hvid
  unfold addBtnClick
  simp only [if_neg hne]
  cases pr with
  | fail =>
    refine ⟨?_, ?_, ?_, ?_⟩
    · intro h
      simp at h
    · intro r
      exact ⟨rfl, rfl, rfl, rfl⟩
    · intro h
      simp at h
    · intro h
      exact absurd h (by simp)
  | ok =>
    dsimp only
    cases getUpsellVariantIdFromSection sectionFound upsellAttr with
    | none =>
      exact ⟨fun _ => rfl, fun r => ⟨rfl, rfl, rfl, rfl⟩,
        fun h => absurd h (by simp), fun _ => rfl⟩
    | some uid =>
      dsimp only
      refine ⟨fun _ => rfl, ?_, ?_, fun _ => ?_⟩
      · intro r
        split <;> exact ⟨rfl, rfl, rfl, rfl⟩
      · intro hlen hur
        cases hur
        split at hlen
        case isTrue hcond =>
          rw [if_pos hcond]
          rfl
        case isFalse hcond =>
          simp at hlen
      · split <;> rfl

/-! ### C2 — upsell rule -/

/-- Substring containment, stated as an explicit decomposition (the meaning
of the spec's "contains the substring"). -/
def SubstrOf (pat s : String) : Prop :=
  ∃ l r, s = l ++ pat ++ r

lemma listContainsSub_iff (pat cs : List Char) :
    listContainsSub pat cs = true ↔ ∃ l r, cs = l ++ pat ++ r := by
  induction cs with
  | nil =>
    constructor
    · intro h
      have hp : pat.isEmpty = true := h
      rw [List.isEmpty_iff] at hp
      exact ⟨[], [], by simp [hp]⟩
    · rintro ⟨l, r, h⟩
      have hl : l = [] := by
        cases l with
        | nil => rfl
        | cons a t => simp at h
      subst hl
      have hp : pat = [] := by
        cases pat with
        | nil => rfl
        | cons a t => simp at h
      subst hp
      rfl
  | cons c cs ih =>
    show (pat.isPrefixOf (c :: cs) || listContainsSub pat cs) = true ↔ _
    rw [Bool.or_eq_true, ih, List.isPrefixOf_iff_prefix]
    constructor
    · rintro (⟨t, ht⟩ | ⟨l, r, rfl⟩)
      · exact ⟨[], t, by simp [← ht]⟩
      · exact ⟨c :: l, r, rfl⟩
    · rintro ⟨l, r, h⟩
      cases l with
      | nil =>
        left
        exact ⟨r, by simpa using h.symm⟩
      | cons a t =>
        right
        simp only [List.cons_append] at h
        injection h with h1 h2
        exact ⟨t, r, h2⟩

lemma strIncludes_iff (s pat : String) :
    strIncludes s pat = true ↔ SubstrOf pat s := by
  unfold strIncludes SubstrOf
  rw [listContainsSub_iff]
  constructor
  · rintro ⟨l, r, h⟩
    refine ⟨⟨l⟩, ⟨r⟩, String.ext ?_⟩
    simpa [String.data_append] using h
  · rintro ⟨l, r, rfl⟩
    exact ⟨l.data, r.data, by simp [String.data_append]⟩

lemma any_includes_iff (L : List String) (pat : String) :
    L.any (fun v => strIncludes v pat) = true ↔ ∃ s ∈ L, SubstrOf pat s := by
  rw [List.any_eq_true]
  constructor
  · rintro ⟨s, hs, h⟩
    exact ⟨s, hs, (strIncludes_iff s pat).mp h⟩
  · rintro ⟨s, hs, h⟩
    exact ⟨s, hs, (strIncludes_iff s pat).mpr h⟩

/-- The variant the add handler looks up for the rule:
`product.variants.find(v => Number(v.id) === Number(vid))`. -/
def chosenVariantOf (p : Product) (vid : String) : Option Variant :=
  p.variants.find? (fun v => JsNum.eqNum (jsNumber vid) (v.id : Rat))

/-- C2: after a successful primary add for variant-id string `vid`, the
second add — quantity 1, for the configured upsell id — is issued iff among
the chosen variant's lower-cased non-empty option values at least one
contains the substring "black" and at least one contains "medium", and an
upsell id is configured on the section; with none configured the primary call
is the only one, whatever the option values. -/
theorem upsell_rule_iff (p : Product) (sectionFound : Bool)
    (upsellAttr : Option String) (env : ClickEnv) (vid : String)
    (hvid : env.variantIdAttr = some vid) (hne : vid ≠ "")
    (hok : env.primaryResult = NetResult.ok) :
    ((addBtnClick p sectionFound upsellAttr env).calls.length = 2 ↔
      ((∃ s ∈ chosenOptionValues (chosenVariantOf p vid), SubstrOf "black" s) ∧
        (∃ s ∈ chosenOptionValues (chosenVariantOf p vid), SubstrOf "medium" s) ∧
        getUpsellVariantIdFromSection sectionFound upsellAttr ≠ none)) ∧
    (∀ uid, getUpsellVariantIdFromSection sectionFound upsellAttr = some uid →
      (∃ s ∈ chosenOptionValues (chosenVariantOf p vid), SubstrOf "black" s) →
      (∃ s ∈ chosenOptionValues (chosenVariantOf p vid), SubstrOf "medium" s) →
      (addBtnClick p sectionFound upsellAttr env).calls =
        [primaryCallOf vid env.qtyValue,
          { id := JsNum.num uid, quantity := JsNum.num 1 }]) ∧
    (getUpsellVariantIdFromSection sectionFound upsellAttr = none →
      (addBtnClick p sectionFound upsellAttr env).calls =
        [primaryCallOf vid env.qtyValue]) := by
  obtain ⟨qv, va, pr, ur⟩ := env
  cases hvid
  cases hok
  unfold addBtnClick primaryCallOf chosenVariantOf
  simp only [if_neg hne]
  cases hu : getUpsellVariantIdFromSection sectionFound upsellAttr with
  | none =>
    refine ⟨?_, ?_, fun _ => rfl⟩
    · simp
    · intro uid huid
      exact absurd huid (by simp)
  | some uid =>
    dsimp only
    split
    case isTrue hcond =>
      rw [Bool.and_eq_true] at hcond
      refine ⟨?_, ?_, ?_⟩
      · constructor
        · intro _
          exact ⟨(any_includes_iff _ _).mp hcond.1,
            (any_includes_iff _ _).mp hcond.2, by simp⟩
        · intro _
          rfl
      · intro uid' huid _ _
        injection huid with h
        rw [h]
      · intro h
        exact absurd h (by simp)
    case isFalse hcond =>
      have hneg : ¬((∃ s ∈ chosenOptionValues
            (p.variants.find? fun v => JsNum.eqNum (jsNumber vid) (v.id : Rat)),
            SubstrOf "black" s) ∧
          (∃ s ∈ chosenOptionValues
            (p.variants.find? fun v => JsNum.eqNum (jsNumber vid) (v.id : Rat)),
            SubstrOf "medium" s)) := by
        rintro ⟨hb, hm⟩
        exact hcond (by
          rw [Bool.and_eq_true]
          exact ⟨(any_includes_iff _ _).mpr hb, (any_includes_iff _ _).mpr hm⟩)
      refine ⟨?_, ?_, ?_⟩
      · constructor
        · intro h
          simp at h
        · rintro ⟨hb, hm, _⟩
          exact absurd ⟨hb, hm⟩ hneg
      · intro uid' huid hb hm
        exact absurd ⟨hb, hm⟩ hneg
      · intro h
        exact absurd h (by simp)

/-! ### C8 — modal lifecycle and scroll lock -/

/-- The invariant of the claim: the page scroll lock is present exactly when
the modal node exists and has the `open` class. -/
def ScrollLockInv (st : PageState) : Prop :=
  st.noScroll = true ↔ st.modal = some true

/-- C8: Escape on an open modal closes it and removes the scroll lock; Escape
while closed or before the node exists changes nothing; opening applies the
lock; under the invariant every close path leaves the page unlocked; and
every transition of the machine preserves "scroll lock iff open". -/
theorem modal_scroll_lock_machine :
    (∀ st, st.modal = some true →
      escapeKeyState st = { modal := some false, noScroll := false }) ∧
    (∀ st, st.modal ≠ some true → escapeKeyState st = st) ∧
    (∀ st, openModalState st = { modal := some true, noScroll := true }) ∧
    (∀ st, ScrollLockInv (openModalState st) ∧ ScrollLockInv (closeModalState st)) ∧
    (∀ st, ScrollLockInv st →
      (closeClickState st).noScroll = false ∧ (escapeKeyState st).noScroll = false) ∧
    (∀ st, ScrollLockInv st →
      ScrollLockInv (escapeKeyState st) ∧ ScrollLockInv (closeClickState st) ∧
        ScrollLockInv (ensureModalState st)) := by
  refine ⟨?_, ?_, fun st => rfl, ?_, ?_, ?_⟩
  · rintro ⟨m, ns⟩ hm
    cases hm
    rfl
  · rintro ⟨m, ns⟩ hm
    rcases m with _ | b
    · rfl
    · cases b
      · rfl
      · exact absurd rfl hm
  · intro st
    exact ⟨by simp [ScrollLockInv, openModalState],
      by simp [ScrollLockInv, closeModalState]⟩
  · rintro ⟨m, ns⟩ hinv
    rcases m with _ | b
    · simp [ScrollLockInv] at hinv
      exact ⟨by simpa [closeClickState] using hinv, by simpa [escapeKeyState] using hinv⟩
    · cases b
      · simp [ScrollLockInv] at hinv
        exact ⟨by simp [closeClickState, closeModalState],
          by simpa [escapeKeyState] using hinv⟩
      · exact ⟨by simp [closeClickState, closeModalState],
          by simp [escapeKeyState, closeModalState]⟩
  · rintro ⟨m, ns⟩ hinv
    rcases m with _ | b
    · simp [ScrollLockInv] at hinv
      refine ⟨?_, ?_, ?_⟩ <;>
        simp [ScrollLockInv, escapeKeyState, closeClickState, ensureModalState, hinv]
    · cases b
      · simp [ScrollLockInv] at hinv
        refine ⟨?_, ?_, ?_⟩ <;>
          simp [ScrollLockInv, escapeKeyState, closeClickState, closeModalState,
            ensureModalState, hinv]
      · have hns : ns = true := hinv.mpr rfl
        cases hns
        refine ⟨?_, ?_, ?_⟩ <;>
          simp [ScrollLockInv, escapeKeyState, closeClickState, closeModalState,
            ensureModalState]

/-! ### C1 — variant resolver -/

lemma all_enumFrom_eq (f : Nat × String → Bool) (l : List String) :
    ∀ n, (List.enumFrom n l).all f =
      (List.range l.length).all (fun i => f (n + i, l.getD i "")) := by
  induction l with
  | nil => intro n; rfl
  | cons a t ih =>
    intro n
    rw [List.enumFrom_cons, List.all_cons, List.length_cons,
      List.range_succ_eq_map, List.all_cons, List.all_map, ih (n + 1)]
    congr 1
    apply all_pred_congr
    intro i _
    show f (n + 1 + i, t.getD i "") = f (n + (i + 1), (a :: t).getD (i + 1) "")
    have hn : n + 1 + i = n + (i + 1) := by omega
    rw [hn, List.getD_cons_succ]

lemma variantMatches_eq_specMatches (p : Product) (sel : Selections)
    (v : Variant) : variantMatches p sel v = specMatches p sel v := by
  unfold variantMatches specMatches
  have he : p.options.enum = List.enumFrom 0 p.options := rfl
  rw [he, all_enumFrom_eq]
  apply all_pred_congr
  intro i _
  simp only [optClauseHolds, Nat.zero_add]
  cases getSel sel (p.options.getD i "") with
  | none => rfl
  | some s =>
    by_cases hs : s = ""
    · simp [hs]
    · simp only [if_neg hs]
      cases optionSlot v i with
      | none => rfl
      | some got => rfl

/-- C1: `findVariant` returns the first variant in `product.variants` order
that satisfies the spec's match predicate — non-empty selection entries must
equal the variant's positional value, absent or empty entries are wildcards —
with `none` when no variant matches (`List.find?` semantics), and for the
empty selection map it returns the first variant in list order. -/
theorem findVariant_first_match (p : Product) (sel : Selections) :
    findVariant p sel = p.variants.find? (specMatches p sel) ∧
    (sel = [] → findVariant p sel = p.variants.head?) := by
  constructor
  · exact find?_pred_congr _ _ _ fun v _ => variantMatches_eq_specMatches p sel v
  · rintro rfl
    unfold findVariant
    have hall : ∀ v ∈ p.variants,
        (fun v => variantMatches p [] v) v = (fun _ => true) v := by
      intro v _
      unfold variantMatches
      apply List.all_eq_true.mpr
      intro e _
      obtain ⟨i, name⟩ := e
      rfl
    rw [find?_pred_congr p.variants _ _ hall, find?_const_true]

/-! ### C4 — pre-seeding vs manual clicking -/

lemma setSel_getSel (sel : Selections) (k q : String) (v : Option String) :
    getSel (setSel sel k v) q = if k = q then v else getSel sel q := by
  induction sel with
  | nil =>
    unfold setSel getSel
    by_cases h : k = q <;> simp [h, getSel]
  | cons e rest ih =>
    obtain ⟨a, b⟩ := e
    by_cases hak : a = k
    · subst hak
      unfold setSel
      simp only [if_pos rfl]
      unfold getSel
      by_cases haq : a = q <;> simp [haq]
    · unfold setSel
      rw [if_neg hak]
      unfold getSel
      by_cases haq : a = q
      · subst haq
        have : ¬(k = a) := fun h => hak h.symm
        simp [this]
      · simp only [if_neg haq]
        exact ih

lemma setSel_idem (sel : Selections) (k : String) (v : Option String) :
    setSel (setSel sel k v) k v = setSel sel k v := by
  induction sel with
  | nil => simp [setSel]
  | cons e rest ih =>
    obtain ⟨a, b⟩ := e
    by_cases h : a = k
    · simp [setSel, h]
    · simp [setSel, h, ih]

lemma clickOpt_selections (p : Product) (st : PickerState) (k : String)
    (v : Option String) :
    (clickOpt p st k v).selections = setSel st.selections k v := by
  cases h : findVariant p (setSel st.selections k v) <;> simp [clickOpt, h]

lemma preSeedStep_eq_clickOpt (p : Product) (iv : Variant)
    (hiv : iv ∈ p.variants) (st : PickerState) (e : Nat × String) :
    preSeedStep p iv st e = clickOpt p st e.2 (optionSlot iv e.1) := by
  obtain ⟨i, k⟩ := e
  unfold preSeedStep
  have hbtn : buttonRendered p i (optionSlot iv i) = true := by
    unfold buttonRendered optionButtonValues
    exact List.elem_iff.mpr (List.mem_dedup.mpr (List.mem_map_of_mem _ hiv))
  obtain ⟨s0, vid0, pc0, tt0⟩ := st
  simp only [hbtn, if_true, clickOpt, setSel_idem]

/-- The effect on the `selections` object of one option click. -/
def selStepOf (iv : Variant) (s : Selections) (e : Nat × String) : Selections :=
  setSel s e.2 (optionSlot iv e.1)

lemma foldl_preSeed_eq_manual (p : Product) (iv : Variant)
    (hiv : iv ∈ p.variants) (L : List (Nat × String)) :
    ∀ st, L.foldl (preSeedStep p iv) st =
      L.foldl (fun st e => clickOpt p st e.2 (optionSlot iv e.1)) st := by
  induction L with
  | nil => intro st; rfl
  | cons e t ih =>
    intro st
    simp only [List.foldl_cons]
    rw [preSeedStep_eq_clickOpt p iv hiv st e]
    exact ih _

lemma manual_fold_selections (p : Product) (iv : Variant)
    (L : List (Nat × String)) :
    ∀ st : PickerState,
      (L.foldl (fun st e => clickOpt p st e.2 (optionSlot iv e.1)) st).selections =
        L.foldl (selStepOf iv) st.selections := by
  induction L with
  | nil => intro st; rfl
  | cons e t ih =>
    intro st
    simp only [List.foldl_cons]
    rw [ih]
    congr 1
    exact clickOpt_selections p st e.2 (optionSlot iv e.1)

lemma getSel_fold_not_mem (iv : Variant) (L : List (Nat × String)) (k : String)
    (hk : ∀ e ∈ L, e.2 ≠ k) :
    ∀ s, getSel (L.foldl (selStepOf iv) s) k = getSel s k := by
  induction L with
  | nil => intro s; rfl
  | cons e t ih =>
    intro s
    simp only [List.foldl_cons]
    rw [ih fun x hx => hk x (List.mem_cons_of_mem _ hx)]
    unfold selStepOf
    rw [setSel_getSel, if_neg (hk e (List.mem_cons_self _ _))]

lemma getSel_fold_mem (iv : Variant) :
    ∀ (L : List (Nat × String)) (i : Nat) (k : String), (i, k) ∈ L →
      (L.map Prod.snd).Nodup →
      ∀ s, getSel (L.foldl (selStepOf iv) s) k = optionSlot iv i := by
  intro L
  induction L with
  | nil =>
    intro i k hmem _ _
    cases hmem
  | cons e t ih =>
    intro i k hmem hnd s
    have hnd2 : (e.2 :: t.map Prod.snd).Nodup := by
      simpa only [List.map_cons] using hnd
    have hnd' := List.nodup_cons.mp hnd2
    simp only [List.foldl_cons]
    rcases List.mem_cons.mp hmem with heq | hmem'
    · cases heq.symm
      have hk : ∀ x ∈ t, x.2 ≠ k := by
        intro x hx hxk
        apply hnd'.1
        rw [← hxk]
        exact List.mem_map.mpr ⟨x, hx, rfl⟩
      rw [getSel_fold_not_mem iv t k hk]
      unfold selStepOf
      rw [setSel_getSel, if_pos rfl]
    · exact ih i k hmem' hnd'.2 (selStepOf iv s e)

lemma find?_eq_some_of_unique {α : Type} (l : List α) (f : α → Bool) (a : α)
    (ha : a ∈ l) (hfa : f a = true)
    (huniq : ∀ b ∈ l, f b = true → b = a) : l.find? f = some a := by
  induction l with
  | nil => cases ha
  | cons x t ih =>
    by_cases hx : f x = true
    · rw [List.find?_cons_of_pos _ hx]
      exact congrArg some (huniq x (List.mem_cons_self _ _) hx)
    · rw [List.find?_cons_of_neg _ (by simpa using hx)]
      apply ih
      · rcases List.mem_cons.mp ha with rfl | h
        · exact absurd hfa hx
        · exact h
      · intro b hb hfb
        exact huniq b (List.mem_cons_of_mem _ hb) hfb

lemma enum_fst_lt {l : List String} {e : Nat × String} (he : e ∈ l.enum) :
    e.1 < l.length := by
  have h := List.mem_enum_iff_get?.mp he
  obtain ⟨hlt, _⟩ := List.get?_eq_some.mp h
  exact hlt

lemma mem_enum_of_lt (l : List String) (i : Nat) (hi : i < l.length) :
    (i, l.get ⟨i, hi⟩) ∈ l.enum :=
  List.mem_enum_iff_get?.mpr (by simp [List.get?_eq_get hi])

lemma enum_getD_eq {l : List String} {e : Nat × String} (he : e ∈ l.enum) :
    l.getD e.1 "" = e.2 := by
  have h := List.mem_enum_iff_get?.mp he
  rw [List.getD_eq_get?, h]
  rfl

lemma initialVariantOf_mem (p : Product) (iv : Variant)
    (hiv : initialVariantOf p = some iv) : iv ∈ p.variants := by
  unfold initialVariantOf at hiv
  cases hfind : p.variants.find? (fun v => v.available) with
  | some w =>
    rw [hfind] at hiv
    injection hiv with h
    rw [← h]
    exact List.mem_of_find?_eq_some hfind
  | none =>
    rw [hfind] at hiv
    cases hv : p.variants with
    | nil =>
      rw [hv] at hiv
      cases hiv
    | cons a t =>
      rw [hv] at hiv
      injection hiv with h
      rw [← h]
      exact List.mem_cons_self _ _

lemma findVariant_full_eq (p : Product) (iv : Variant) (hmem : iv ∈ p.variants)
    (hnd : p.options.Nodup)
    (hvals : ∀ v ∈ p.variants, ∀ i, i < p.options.length →
      ∃ s, optionSlot v i = some s ∧ s ≠ "")
    (huniq : ∀ v ∈ p.variants, ∀ w ∈ p.variants,
      (∀ i, i < p.options.length → optionSlot v i = optionSlot w i) → v = w) :
    findVariant p (p.options.enum.foldl (selStepOf iv) []) = some iv := by
  have hndnames : (p.options.enum.map Prod.snd).Nodup := by
    rw [List.enum_map_snd]
    exact hnd
  have hgs : ∀ e ∈ p.options.enum,
      getSel (p.options.enum.foldl (selStepOf iv) []) e.2 = optionSlot iv e.1 := by
    intro e he
    obtain ⟨i, k⟩ := e
    exact getSel_fold_mem iv p.options.enum i k he hndnames []
  unfold findVariant
  apply find?_eq_some_of_unique _ _ iv hmem
  · unfold variantMatches
    apply List.all_eq_true.mpr
    intro e he
    obtain ⟨i, k⟩ := e
    have hi : i < p.options.length := enum_fst_lt he
    obtain ⟨s, hslot, hs⟩ := hvals iv hmem i hi
    have hg2 : getSel (p.options.enum.foldl (selStepOf iv) []) k =
        optionSlot iv i := hgs (i, k) he
    simp only [optClauseHolds]
    rw [hg2, hslot]
    simp [hs]
  · intro w hw hmatch
    apply huniq w hw iv hmem
    intro i hi
    have hmem_e : (i, p.options.get ⟨i, hi⟩) ∈ p.options.enum :=
      mem_enum_of_lt p.options i hi
    have hcl := List.all_eq_true.mp hmatch _ hmem_e
    obtain ⟨s, hslot, hs⟩ := hvals iv hmem i hi
    have hg2 : getSel (p.options.enum.foldl (selStepOf iv) [])
        (p.options.get ⟨i, hi⟩) = optionSlot iv i := hgs _ hmem_e
    simp only [optClauseHolds] at hcl
    rw [hg2, hslot] at hcl
    simp only [if_neg hs] at hcl
    cases hwslot : optionSlot w i with
    | none =>
      rw [hwslot] at hcl
      cases hcl
    | some got =>
      rw [hwslot] at hcl
      have hgot : got = s := by simpa using hcl
      rw [hgot, hslot]

lemma slot_spec_of_ne (v : Variant) (i : Nat)
    (h1 : optionSlot v i ≠ none) (h2 : optionSlot v i ≠ some "") :
    ∃ s, optionSlot v i = some s ∧ s ≠ "" := by
  cases h : optionSlot v i with
  | none => exact absurd h h1
  | some s =>
    refine ⟨s, rfl, ?_⟩
    intro he
    exact h2 (by rw [h, he])

lemma clickOpt_eq_of_find (p : Product) (st : PickerState) (k : String)
    (v : Option String) (w : Variant)
    (h : findVariant p (setSel st.selections k v) = some w) :
    clickOpt p st k v =
      { selections := setSel st.selections k v,
        variantId := some (toString w.id), priceCents := some w.price,
        titleText := some (titleFor p w) } := by
  simp only [clickOpt, h]

/-- C4: under the data-model invariants of the product JSON — at least one
option, distinct option names, every variant carrying a non-empty string in
every option slot, and no two variants sharing the same full option tuple —
pre-seeding the pickers from the first variant flagged available (or the
first variant when none is) yields exactly the state the shopper reaches by
manually clicking those same option values: same selection map, same session
variant id, same displayed price and title. -/
theorem preseed_manual_equiv (p : Product) (iv : Variant)
    (hiv : initialVariantOf p = some iv)
    (hopts : p.options ≠ []) (hnd : p.options.Nodup)
    (hvals : ∀ v ∈ p.variants, ∀ i, i < p.options.length →
      optionSlot v i ≠ none ∧ optionSlot v i ≠ some "")
    (huniq : ∀ v ∈ p.variants, ∀ w ∈ p.variants,
      (∀ i, i < p.options.length → optionSlot v i = optionSlot w i) → v = w) :
    buildVariantPickersState p = manualClicksState p iv := by
  have hmem := initialVariantOf_mem p iv hiv
  have hfull := findVariant_full_eq p iv hmem hnd
    (fun v hv i hi => slot_spec_of_ne v i (hvals v hv i hi).1 (hvals v hv i hi).2)
    huniq
  have hE : p.options.enum ≠ [] := by
    intro h
    apply hopts
    have h2 := congrArg (List.map Prod.snd) h
    rwa [List.enum_map_snd] at h2
  obtain ⟨E, e, hdecomp⟩ : ∃ E e, p.options.enum = E ++ [e] :=
    ⟨p.options.enum.dropLast, p.options.enum.getLast hE,
      (List.dropLast_append_getLast hE).symm⟩
  unfold buildVariantPickersState manualClicksState
  rw [hiv]
  dsimp only
  rw [foldl_preSeed_eq_manual p iv hmem]
  rw [hdecomp, List.foldl_append]
  simp only [List.foldl_cons, List.foldl_nil]
  have hYsel : (E.foldl (fun st e => clickOpt p st e.2 (optionSlot iv e.1))
      (freshPickerState p)).selections = E.foldl (selStepOf iv) [] :=
    manual_fold_selections p iv E (freshPickerState p)
  have hfullsel : setSel (E.foldl (selStepOf iv) []) e.2 (optionSlot iv e.1) =
      p.options.enum.foldl (selStepOf iv) [] := by
    rw [hdecomp, List.foldl_append]
    rfl
  have hfind : findVariant p
      (setSel (E.foldl (fun st e => clickOpt p st e.2 (optionSlot iv e.1))
        (freshPickerState p)).selections e.2 (optionSlot iv e.1)) = some iv := by
    rw [hYsel, hfullsel]
    exact hfull
  rw [clickOpt_eq_of_find p _ e.2 (optionSlot iv e.1) iv hfind]

/-! ### Concrete fixtures and witnesses -/

/-- A Black/Medium variant, available, price 1999 minor units. -/
def vBlackMedium : Variant :=
  { id := 1, vtitle := some "Black / Medium", price := 1999, available := true,
    option1 := some "Black", option2 := some "Medium", option3 := none }

/-- A Red/Large variant, not available, price 2500 minor units. -/
def vRedLarge : Variant :=
  { id := 2, vtitle := some "Red / Large", price := 2500, available := false,
    option1 := some "Red", option2 := some "Large", option3 := none }

/-- A two-option product whose first available variant is `vBlackMedium`. -/
def prodShirt : Product :=
  { title := "Shirt", options := ["Color", "Size"],
    variants := [vRedLarge, vBlackMedium] }

/-- A variant whose values only loosely contain the rule substrings. -/
def vLoose : Variant :=
  { id := 7, vtitle := none, price := 2100, available := true,
    option1 := some "Blackout", option2 := some "Medium-ish", option3 := none }

/-- A one-variant product for the loose-substring scenario. -/
def prodLoose : Product :=
  { title := "Curtain", options := ["Shade", "Fit"], variants := [vLoose] }

/-- Add click with variant id "1", quantity "2", both adds succeeding. -/
def envOkVid1 : ClickEnv :=
  { qtyValue := "2", variantIdAttr := some "1", primaryResult := NetResult.ok,
    upsellResult := NetResult.ok }

/-- Add click with variant id "1" whose primary add fails. -/
def envFailVid1 : ClickEnv :=
  { qtyValue := "2", variantIdAttr := some "1",
    primaryResult := NetResult.fail, upsellResult := NetResult.ok }

/-- Add click before any variant id was resolved. -/
def envNoVid : ClickEnv :=
  { qtyValue := "1", variantIdAttr := none, primaryResult := NetResult.ok,
    upsellResult := NetResult.ok }

/-- Add click with variant id "7", empty quantity input, failing upsell. -/
def envOkVid7 : ClickEnv :=
  { qtyValue := "", variantIdAttr := some "7", primaryResult := NetResult.ok,
    upsellResult := NetResult.fail }

theorem findVariant_first_match_witness :
    ([] : Selections) = [] ∧
    findVariant prodShirt [] =
      prodShirt.variants.find? (specMatches prodShirt []) ∧
    findVariant prodShirt [] = prodShirt.variants.head? :=
  ⟨rfl, (findVariant_first_match prodShirt []).1,
    (findVariant_first_match prodShirt []).2 rfl⟩

theorem upsell_rule_iff_witness :
    envOkVid7.variantIdAttr = some "7" ∧ ("7" : String) ≠ "" ∧
    envOkVid7.primaryResult = NetResult.ok ∧
    (addBtnClick prodLoose true (some "777") envOkVid7).calls =
      [primaryCallOf "7" "",
        { id := JsNum.num 777, quantity := JsNum.num 1 }] := by
  have h7 : jsNumber "7" = JsNum.num 7 := by
    simp [jsNumber, trimChars, parseDec, digitsVal]
  have hpred : (fun v => JsNum.eqNum (jsNumber "7") ((v.id : Int) : Rat)) vLoose
      = true := by
    rw [h7]
    show ((7 : Rat) == ((vLoose.id : Int) : Rat)) = true
    norm_num [vLoose]
  have hfind : chosenVariantOf prodLoose "7" = some vLoose := by
    unfold chosenVariantOf
    show List.find? _ [vLoose] = some vLoose
    exact List.find?_cons_of_pos _ hpred
  have hvals2 : chosenOptionValues (chosenVariantOf prodLoose "7") =
      ["blackout", "medium-ish"] := by
    rw [hfind]
    decide
  have hb : ∃ s ∈ chosenOptionValues (chosenVariantOf prodLoose "7"),
      SubstrOf "black" s := by
    rw [hvals2]
    exact (any_includes_iff _ _).mp (by decide)
  have hm : ∃ s ∈ chosenOptionValues (chosenVariantOf prodLoose "7"),
      SubstrOf "medium" s := by
    rw [hvals2]
    exact (any_includes_iff _ _).mp (by decide)
  have h777 : getUpsellVariantIdFromSection true (some "777") = some 777 := by
    simp [getUpsellVariantIdFromSection, jsNumber, trimChars, parseDec, digitsVal]
  exact ⟨rfl, by decide, rfl,
    (upsell_rule_iff prodLoose true (some "777") envOkVid7 "7" rfl
      (by decide) rfl).2.1 777 h777 hb hm⟩

theorem upsell_after_primary_witness :
    envOkVid1.variantIdAttr = some "1" ∧ ("1" : String) ≠ "" ∧
    (1 < (addBtnClick prodShirt true (some "777") envOkVid1).calls.length →
      envOkVid1.primaryResult = NetResult.ok) :=
  ⟨rfl, by decide,
    (upsell_after_primary prodShirt true (some "777") envOkVid1 "1" rfl
      (by decide)).1⟩

theorem preseed_manual_equiv_witness :
    initialVariantOf prodShirt = some vBlackMedium ∧
    prodShirt.options ≠ [] ∧ prodShirt.options.Nodup ∧
    (∀ v ∈ prodShirt.variants, ∀ i, i < prodShirt.options.length →
      optionSlot v i ≠ none ∧ optionSlot v i ≠ some "") ∧
    (∀ v ∈ prodShirt.variants, ∀ w ∈ prodShirt.variants,
      (∀ i, i < prodShirt.options.length →
        optionSlot v i = optionSlot w i) → v = w) ∧
    buildVariantPickersState prodShirt = manualClicksState prodShirt vBlackMedium :=
  ⟨by decide, by decide, by decide, by decide, by decide,
    preseed_manual_equiv prodShirt vBlackMedium (by decide) (by decide)
      (by decide) (by decide) (by decide)⟩

theorem primary_fail_outcome_witness :
    envFailVid1.variantIdAttr = some "1" ∧ ("1" : String) ≠ "" ∧
    envFailVid1.primaryResult = NetResult.fail ∧
    addBtnClick prodShirt true (some "777") envFailVid1 =
      { calls := [primaryCallOf "1" "2"],
        msg := "Could not add to cart. Try again.", addBtnDisabled := false,
        navigatedToCart := false, upsellWarnLogged := false } :=
  ⟨rfl, by decide, rfl,
    primary_fail_outcome prodShirt true (some "777") envFailVid1 "1" rfl
      (by decide) rfl⟩

theorem missing_input_no_network_witness :
    (envNoVid.variantIdAttr = none ∨ envNoVid.variantIdAttr = some "") ∧
    addBtnClick prodShirt true none envNoVid =
      { calls := [], msg := "Please select variant", addBtnDisabled := false,
        navigatedToCart := false, upsellWarnLogged := false } :=
  ⟨Or.inl rfl,
    (missing_input_no_network prodShirt true none envNoVid (Or.inl rfl)).2.2⟩

theorem modal_scroll_lock_machine_witness :
    ({ modal := some true, noScroll := true } : PageState).modal = some true ∧
    escapeKeyState { modal := some true, noScroll := true } =
      { modal := some false, noScroll := false } :=
  ⟨rfl, modal_scroll_lock_machine.1 { modal := some true, noScroll := true } rfl⟩

theorem getUpsellVariantId_characterisation_witness :
    jsNumber "42" = JsNum.num 42 ∧ (42 : Rat) ≠ 0 ∧
    getUpsellVariantIdFromSection true (some "42") = some 42 := by
  have h42 : jsNumber "42" = JsNum.num 42 := by
    simp [jsNumber, trimChars, parseDec, digitsVal]
  exact ⟨h42, by norm_num,
    getUpsellVariantId_characterisation.2.2.2.1 "42" 42 h42 (by norm_num)⟩

theorem primary_body_coercion_witness :
    envOkVid7.variantIdAttr = some "7" ∧ ("7" : String) ≠ "" ∧
    (addBtnClick prodLoose true none envOkVid7).calls.head? =
      some (primaryCallOf "7" "") :=
  ⟨rfl, by decide,
    primary_body_coercion prodLoose true none envOkVid7 "7" rfl (by decide)⟩
